import Mathlib

/-!
Verification development for the ghostweb session bridge (`index.ts`).

The source program bridges a child process running under a PTY (via a
line-oriented JSON protocol with a PTY-host subprocess) to browser viewers
connected over WebSocket.  The definitions below are a shallow embedding of
the relevant parts of the source:

* the incremental UTF-8 output decoder (`outputDecoder`, a WHATWG
  `TextDecoder` used with `stream: true`), modelled byte-for-byte from the
  WHATWG UTF-8 decode algorithm that `TextDecoder` implements;
* the `startPtyProxy` event callback, the `exitSent` guard on
  `subprocess.exited`, and `stopServerSoon`;
* the broadcast hub (`clients` set, `broadcast`, the `websocket.open` /
  `close` handlers, `handleClientMessage`);
* the PTY-host protocol client's line loop (`forwardOutput`) and `stop`;
* the CLI parser (`parseArgs`).

Bytes are `Nat` values `< 256`; decoded text is a list of Unicode code
points (`List Nat`); JavaScript numbers are modelled by `JSNum` (a rational
or one of the non-finite values).  Base64 payloads of PTY-host `output`
events are represented by the byte sequence they encode.
-/

namespace Ghostweb

/-- State of the WHATWG incremental UTF-8 decoder backing `outputDecoder`:
the partially assembled code point, how many continuation bytes are still
needed / have been seen, and the admissible range for the next byte. -/
structure DecState where
  codepoint : Nat
  needed : Nat
  seen : Nat
  lower : Nat
  upper : Nat
deriving DecidableEq

/-- Fresh decoder state (no partial sequence buffered). -/
def DecState.init : DecState := ⟨0, 0, 0, 0x80, 0xBF⟩

/-- Process one byte from the idle state (no sequence in progress):
either emit an ASCII code point, start a multi-byte sequence with the
WHATWG boundary adjustments for E0/ED/F0/F4, or emit U+FFFD on an
illegal lead byte. -/
def utf8StartByte (b : Nat) : DecState × List Nat :=
  if b ≤ 0x7F then (DecState.init, [b])
  else if 0xC2 ≤ b ∧ b ≤ 0xDF then (⟨b % 32, 1, 0, 0x80, 0xBF⟩, [])
  else if b = 0xE0 then (⟨b % 16, 2, 0, 0xA0, 0xBF⟩, [])
  else if b = 0xED then (⟨b % 16, 2, 0, 0x80, 0x9F⟩, [])
  else if 0xE1 ≤ b ∧ b ≤ 0xEF then (⟨b % 16, 2, 0, 0x80, 0xBF⟩, [])
  else if b = 0xF0 then (⟨b % 8, 3, 0, 0x90, 0xBF⟩, [])
  else if b = 0xF4 then (⟨b % 8, 3, 0, 0x80, 0x8F⟩, [])
  else if 0xF1 ≤ b ∧ b ≤ 0xF3 then (⟨b % 8, 3, 0, 0x80, 0xBF⟩, [])
  else (DecState.init, [0xFFFD])

/-- Process one byte in an arbitrary decoder state.  A continuation byte
outside the admissible range emits U+FFFD and reprocesses the byte from
the idle state, exactly as the WHATWG algorithm prepends the byte back to
the stream after an error. -/
def utf8ProcByte (s : DecState) (b : Nat) : DecState × List Nat :=
  if s.needed = 0 then utf8StartByte b
  else if s.lower ≤ b ∧ b ≤ s.upper then
    let cp := s.codepoint * 64 + b % 64
    if s.seen + 1 = s.needed then (DecState.init, [cp])
    else (⟨cp, s.needed, s.seen + 1, 0x80, 0xBF⟩, [])
  else
    let r := utf8StartByte b
    (r.1, 0xFFFD :: r.2)

/-- `outputDecoder.decode(bytes, { stream: true })`: decode one chunk,
returning the new decoder state and the emitted code points. -/
def utf8DecodeChunk : DecState → List Nat → DecState × List Nat
  | s, [] => (s, [])
  | s, b :: bs =>
    let r := utf8ProcByte s b
    let rest := utf8DecodeChunk r.1 bs
    (rest.1, r.2 ++ rest.2)

/-- `outputDecoder.decode()` with no argument (end of stream): a buffered
incomplete sequence is flushed as a single U+FFFD. -/
def utf8Flush (s : DecState) : List Nat :=
  if s.needed = 0 then [] else [0xFFFD]

/-- Feed a sequence of chunks through the stateful decoder, concatenating
the emitted text. -/
def decodeChunks : DecState → List (List Nat) → DecState × List Nat
  | s, [] => (s, [])
  | s, c :: cs =>
    let r := utf8DecodeChunk s c
    let rest := decodeChunks r.1 cs
    (rest.1, r.2 ++ rest.2)

theorem utf8DecodeChunk_append (s : DecState) (a b : List Nat) :
    utf8DecodeChunk s (a ++ b) =
      ((utf8DecodeChunk (utf8DecodeChunk s a).1 b).1,
       (utf8DecodeChunk s a).2 ++ (utf8DecodeChunk (utf8DecodeChunk s a).1 b).2) := by
  induction a generalizing s with
  | nil => simp [utf8DecodeChunk]
  | cons x xs ih => simp [utf8DecodeChunk, ih]

/-- C2: incrementally decoding a byte stream chunk-by-chunk yields the same
text (and the same decoder state) as decoding the concatenation of the
chunks; in particular a multi-byte character split across two consecutive
chunks — here € = E2 82 AC split as [E2 82] / [AC] — decodes to the correct
code point exactly once, with no replacement characters and no
duplication. -/
theorem C2_incremental_decode_chunking :
    (∀ (s : DecState) (chunks : List (List Nat)),
        decodeChunks s chunks = utf8DecodeChunk s chunks.flatten) ∧
    (utf8DecodeChunk DecState.init [0xE2, 0x82, 0xAC]).2 = [0x20AC] ∧
    (decodeChunks DecState.init [[0xE2, 0x82], [0xAC]]).2 = [0x20AC] := by
  refine ⟨?_, by decide, by decide⟩
  intro s chunks
  induction chunks generalizing s with
  | nil => simp [decodeChunks, utf8DecodeChunk]
  | cons c cs ih => simp [decodeChunks, List.flatten, utf8DecodeChunk_append, ih]

/-- An event parsed from one line of the PTY host's output stream
(`ProxyEvent` in the source); the base64 `data` payload of an `output`
event is represented by the byte sequence it encodes. -/
inductive ProxyEvent where
  | output (data : List Nat)
  | exitEv (code : Option Int) (signal : Option Int)
deriving DecidableEq

/-- A frame broadcast to viewers (`ServerMessage` in the source); `output`
carries decoded text as code points, `exitMsg` carries the optional exit
code and signal (`?? undefined` maps `null` to absent). -/
inductive ServerMessage where
  | output (data : List Nat)
  | exitMsg (code : Option Int) (signal : Option Int)
deriving DecidableEq

def isOutputFrame : ServerMessage → Bool
  | ServerMessage.output _ => true
  | ServerMessage.exitMsg _ _ => false

def isExitFrame : ServerMessage → Bool
  | ServerMessage.output _ => false
  | ServerMessage.exitMsg _ _ => true

def isOutputEvent : ProxyEvent → Bool
  | ProxyEvent.output _ => true
  | ProxyEvent.exitEv _ _ => false

/-- The mutable state surrounding `startPtyProxy` and the module-level
server bookkeeping: the `outputDecoder` state, the `exitSent` flag, the
`shuttingDown` flag, the delays of teardown timers registered by
`stopServerSoon` (`setTimeout(..., 500)`), and whether `server.stop` /
`ptyProxy.stop` have actually run (they only run when a scheduled timer
fires, never synchronously). -/
structure SessionState where
  dec : DecState
  exitSent : Bool
  shuttingDown : Bool
  scheduled : List Nat
  stopped : Bool
deriving DecidableEq

def SessionState.init : SessionState := ⟨DecState.init, false, false, [], false⟩

/-- `stopServerSoon`: on first call sets `shuttingDown` and registers a
teardown timer with a 500 ms grace delay; later calls are no-ops.  The
teardown itself does not run here (`stopped` is untouched). -/
def stopServerSoon (s : SessionState) : SessionState :=
  if s.shuttingDown then s
  else { s with shuttingDown := true, scheduled := s.scheduled ++ [500] }

/-- The `onEvent` callback passed to `startPtyProxy` (source lines
445–459): an `output` event is decoded incrementally and broadcast only
when the decoded text is non-empty; an `exit` event flushes the decoder,
broadcasts the flushed text (if any) as an `output` frame, broadcasts one
`exit` frame, and calls `stopServerSoon`.  The returned list is the
sequence of frames handed to `broadcast`, in order. -/
def onEvent (s : SessionState) (e : ProxyEvent) : SessionState × List ServerMessage :=
  match e with
  | ProxyEvent.output bs =>
    let r := utf8DecodeChunk s.dec bs
    ({ s with dec := r.1 }, if r.2.length > 0 then [ServerMessage.output r.2] else [])
  | ProxyEvent.exitEv c sg =>
    let remaining := utf8Flush s.dec
    (stopServerSoon { s with dec := DecState.init },
     (if remaining.length > 0 then [ServerMessage.output remaining] else [])
       ++ [ServerMessage.exitMsg c sg])

/-- One iteration of the `forwardOutput` line loop for a successfully
parsed event: call `onEvent`, then set `exitSent` when the event was an
`exit`. -/
def handleHostEvent (s : SessionState) (e : ProxyEvent) : SessionState × List ServerMessage :=
  let r := onEvent s e
  match e with
  | ProxyEvent.exitEv _ _ => ({ r.1 with exitSent := true }, r.2)
  | ProxyEvent.output _ => r

/-- Run the `forwardOutput` loop over a sequence of parsed host events,
collecting all broadcast frames in order. -/
def runHostEvents : SessionState → List ProxyEvent → SessionState × List ServerMessage
  | s, [] => (s, [])
  | s, e :: evs =>
    let r := handleHostEvent s e
    let rest := runHostEvents r.1 evs
    (rest.1, r.2 ++ rest.2)

/-- The `subprocess.exited` continuation (source lines 399–405): after the
host's output stream has ended, synthesize an `exit` event only when no
`exit` message was observed on the stream (`exitSent` guard). -/
def handleSubprocessExited (s : SessionState) (code : Option Int) :
    SessionState × List ServerMessage :=
  if s.exitSent then (s, []) else onEvent s (ProxyEvent.exitEv code none)

/-- A whole session: the host emits `evs` on its output stream, the stream
ends, and then the `subprocess.exited` continuation runs with the child's
exit code.  The result is the full sequence of frames broadcast to
viewers. -/
def runSession (evs : List ProxyEvent) (code : Option Int) : List ServerMessage :=
  let r := runHostEvents SessionState.init evs
  r.2 ++ (handleSubprocessExited r.1 code).2

/-- No `output` frame occurs after an `exitMsg` frame in the trace. -/
def exitClean : List ServerMessage → Bool
  | [] => true
  | m :: rest =>
    if isExitFrame m then rest.all (fun x => !isOutputFrame x) else exitClean rest

/-- The PTY host's line protocol delivers `exit` at most once and as its
final message: the observed event sequence is either all `output` events,
or `output` events followed by one final `exit`. -/
def ExitTerminal (evs : List ProxyEvent) : Prop :=
  (∀ e ∈ evs, isOutputEvent e = true) ∨
  ∃ outs c sg, evs = outs ++ [ProxyEvent.exitEv c sg] ∧ ∀ e ∈ outs, isOutputEvent e = true

theorem isExitFrame_false_of_output {m : ServerMessage} (h : isOutputFrame m = true) :
    isExitFrame m = false := by
  cases m <;> simp_all [isOutputFrame, isExitFrame]

theorem trace_shape (A : List ServerMessage) (c sg : Option Int)
    (h : ∀ m ∈ A, isOutputFrame m = true) :
    (A ++ [ServerMessage.exitMsg c sg]).countP isExitFrame ≤ 1 ∧
    exitClean (A ++ [ServerMessage.exitMsg c sg]) = true := by
  induction A with
  | nil => simp [exitClean, isExitFrame]
  | cons m A ih =>
    have hm := isExitFrame_false_of_output (h m (List.mem_cons_self m A))
    have hA := ih (fun x hx => h x (List.mem_cons_of_mem m hx))
    constructor
    · simpa [List.countP_cons, hm] using hA.1
    · simpa [exitClean, hm] using hA.2

theorem onEvent_exit_frames (s : SessionState) (c sg : Option Int) :
    ∃ A, (onEvent s (ProxyEvent.exitEv c sg)).2 = A ++ [ServerMessage.exitMsg c sg] ∧
      ∀ m ∈ A, isOutputFrame m = true := by
  refine ⟨if (utf8Flush s.dec).length > 0 then [ServerMessage.output (utf8Flush s.dec)] else [],
    ?_, ?_⟩
  · simp [onEvent]
  · split <;> simp [isOutputFrame]

theorem runHostEvents_out (evs : List ProxyEvent) :
    ∀ s : SessionState, (∀ e ∈ evs, isOutputEvent e = true) →
    (runHostEvents s evs).1.exitSent = s.exitSent ∧
    ∀ m ∈ (runHostEvents s evs).2, isOutputFrame m = true := by
  induction evs with
  | nil => intro s _; simp [runHostEvents]
  | cons e evs ih =>
    intro s h
    obtain ⟨he, hrest⟩ := List.forall_mem_cons.mp h
    cases e with
    | exitEv c sg => simp [isOutputEvent] at he
    | output bs =>
      have step : handleHostEvent s (ProxyEvent.output bs) =
          ({ s with dec := (utf8DecodeChunk s.dec bs).1 },
           if (utf8DecodeChunk s.dec bs).2.length > 0 then
             [ServerMessage.output (utf8DecodeChunk s.dec bs).2] else []) := by
        simp [handleHostEvent, onEvent]
      have ihs := ih { s with dec := (utf8DecodeChunk s.dec bs).1 } hrest
      constructor
      · simpa [runHostEvents, step] using ihs.1
      · intro m hm
        simp only [runHostEvents, step, List.mem_append] at hm
        rcases hm with hm | hm
        · split at hm
          · simp only [List.mem_singleton] at hm
            simp [hm, isOutputFrame]
          · simp at hm
        · exact ihs.2 m hm

theorem runHostEvents_append (s : SessionState) (a b : List ProxyEvent) :
    runHostEvents s (a ++ b) =
      ((runHostEvents (runHostEvents s a).1 b).1,
       (runHostEvents s a).2 ++ (runHostEvents (runHostEvents s a).1 b).2) := by
  induction a generalizing s with
  | nil => simp [runHostEvents]
  | cons e a ih => simp [runHostEvents, ih]

/-- C1: provided the PTY host's protocol emits `exit` at most once and as
its final message, a session broadcasts at most one `exit` frame and no
`output` frame after it; moreover, whenever an `exit` message has already
been observed on the host stream (`exitSent = true`), the
`subprocess.exited` continuation at end-of-stream broadcasts nothing — in
particular no second `exit` frame. -/
theorem C1_single_exit_broadcast (evs : List ProxyEvent) (code : Option Int)
    (h : ExitTerminal evs) :
    ((runSession evs code).countP isExitFrame ≤ 1 ∧
      exitClean (runSession evs code) = true) ∧
    ∀ (s : SessionState) (c : Option Int), s.exitSent = true →
      handleSubprocessExited s c = (s, []) := by
  refine ⟨?_, fun s c hs => by simp [handleSubprocessExited, hs]⟩
  rcases h with hall | ⟨outs, c, sg, rfl, hall⟩
  · have hrun := runHostEvents_out evs SessionState.init hall
    have hes : (runHostEvents SessionState.init evs).1.exitSent = false := hrun.1
    obtain ⟨A, hA, hAout⟩ :=
      onEvent_exit_frames (runHostEvents SessionState.init evs).1 code none
    have hshape := trace_shape ((runHostEvents SessionState.init evs).2 ++ A) code none
      (by
        intro m hm
        rcases List.mem_append.mp hm with hm | hm
        · exact hrun.2 m hm
        · exact hAout m hm)
    have htrace : runSession evs code =
        ((runHostEvents SessionState.init evs).2 ++ A) ++ [ServerMessage.exitMsg code none] := by
      simp [runSession, handleSubprocessExited, hes, hA]
    rw [htrace]
    exact hshape
  · have hrun := runHostEvents_out outs SessionState.init hall
    obtain ⟨A, hA, hAout⟩ :=
      onEvent_exit_frames (runHostEvents SessionState.init outs).1 c sg
    have hstep : runHostEvents SessionState.init (outs ++ [ProxyEvent.exitEv c sg]) =
        ((runHostEvents (runHostEvents SessionState.init outs).1 [ProxyEvent.exitEv c sg]).1,
         (runHostEvents SessionState.init outs).2 ++
           (runHostEvents (runHostEvents SessionState.init outs).1 [ProxyEvent.exitEv c sg]).2) :=
      runHostEvents_append SessionState.init outs [ProxyEvent.exitEv c sg]
    have hsent :
        (runHostEvents (runHostEvents SessionState.init outs).1 [ProxyEvent.exitEv c sg]).1.exitSent
          = true := by
      simp [runHostEvents, handleHostEvent]
    have htrace : runSession (outs ++ [ProxyEvent.exitEv c sg]) code =
        ((runHostEvents SessionState.init outs).2 ++ A) ++ [ServerMessage.exitMsg c sg] := by
      simp only [runSession, hstep, hsent, handleSubprocessExited, if_pos]
      simp [runHostEvents, handleHostEvent, hA]
    rw [htrace]
    exact trace_shape _ c sg (by
      intro m hm
      rcases List.mem_append.mp hm with hm | hm
      · exact hrun.2 m hm
      · exact hAout m hm)

/-- Witness for C1 at a concrete session: the host emits one `output`
event (bytes of "hi") and then its stream ends; the child's exit code is
0. -/
theorem C1_single_exit_broadcast_witness :
    ExitTerminal [ProxyEvent.output [104, 105]] ∧
    (((runSession [ProxyEvent.output [104, 105]] (some 0)).countP isExitFrame ≤ 1 ∧
        exitClean (runSession [ProxyEvent.output [104, 105]] (some 0)) = true) ∧
      ∀ (s : SessionState) (c : Option Int), s.exitSent = true →
        handleSubprocessExited s c = (s, [])) :=
  ⟨Or.inl (by decide),
    C1_single_exit_broadcast [ProxyEvent.output [104, 105]] (some 0) (Or.inl (by decide))⟩

/-- C4: on a host `exit` event, the decoder flush is broadcast first (as an
`output` frame, only when non-empty) followed by exactly one `exit` frame
carrying the event's code and signal; teardown is merely scheduled with the
fixed 500 ms grace delay (`shuttingDown` set, a 500 timer registered) and
does not happen immediately (`stopped` unchanged). -/
theorem C4_flush_then_exit_then_graceful (s : SessionState) (c sg : Option Int)
    (h : s.shuttingDown = false) :
    (onEvent s (ProxyEvent.exitEv c sg)).2 =
      (if (utf8Flush s.dec).length > 0 then [ServerMessage.output (utf8Flush s.dec)] else [])
        ++ [ServerMessage.exitMsg c sg] ∧
    (onEvent s (ProxyEvent.exitEv c sg)).1.shuttingDown = true ∧
    (onEvent s (ProxyEvent.exitEv c sg)).1.scheduled = s.scheduled ++ [500] ∧
    (onEvent s (ProxyEvent.exitEv c sg)).1.stopped = s.stopped := by
  simp [onEvent, stopServerSoon, h]

/-- Witness for C4 at a concrete state: a decoder holding the first two
bytes of € (so the flush is non-empty) and a session not yet shutting
down. -/
theorem C4_flush_then_exit_then_graceful_witness :
    (SessionState.mk (utf8DecodeChunk DecState.init [0xE2, 0x82]).1 false false [] false).shuttingDown
        = false ∧
    ((onEvent ⟨(utf8DecodeChunk DecState.init [0xE2, 0x82]).1, false, false, [], false⟩
        (ProxyEvent.exitEv (some 0) none)).2 =
      (if (utf8Flush (utf8DecodeChunk DecState.init [0xE2, 0x82]).1).length > 0 then
          [ServerMessage.output (utf8Flush (utf8DecodeChunk DecState.init [0xE2, 0x82]).1)]
        else []) ++ [ServerMessage.exitMsg (some 0) none] ∧
      (onEvent ⟨(utf8DecodeChunk DecState.init [0xE2, 0x82]).1, false, false, [], false⟩
        (ProxyEvent.exitEv (some 0) none)).1.shuttingDown = true ∧
      (onEvent ⟨(utf8DecodeChunk DecState.init [0xE2, 0x82]).1, false, false, [], false⟩
        (ProxyEvent.exitEv (some 0) none)).1.scheduled = [] ++ [500] ∧
      (onEvent ⟨(utf8DecodeChunk DecState.init [0xE2, 0x82]).1, false, false, [], false⟩
        (ProxyEvent.exitEv (some 0) none)).1.stopped = false) :=
  ⟨rfl, C4_flush_then_exit_then_graceful
    ⟨(utf8DecodeChunk DecState.init [0xE2, 0x82]).1, false, false, [], false⟩
    (some 0) none rfl⟩

/-- C10: a host `output` event whose payload decodes (incrementally, in
the current decoder state) to the empty string causes no broadcast at all
— the `decoded.length > 0` guard suppresses even an empty `output`
frame. -/
theorem C10_empty_decode_no_broadcast (s : SessionState) (bs : List Nat)
    (h : (utf8DecodeChunk s.dec bs).2 = []) :
    (onEvent s (ProxyEvent.output bs)).2 = [] := by
  simp [onEvent, h]

/-- Witness for C10: the first two bytes of € buffer entirely in the
decoder, so the event broadcasts nothing. -/
theorem C10_empty_decode_no_broadcast_witness :
    (utf8DecodeChunk SessionState.init.dec [0xE2, 0x82]).2 = [] ∧
    (onEvent SessionState.init (ProxyEvent.output [0xE2, 0x82])).2 = [] :=
  ⟨by decide, C10_empty_decode_no_broadcast SessionState.init [0xE2, 0x82] (by decide)⟩

/-- The broadcast hub: the module-level `clients` set (viewer transports,
identified by `Nat` handles, in insertion order) together with the frames
each transport has successfully been sent.  `logs` is the observation of
every `send` that did not throw. -/
structure HubState where
  clients : List Nat
  logs : Nat → List ServerMessage

def HubState.init : HubState := ⟨[], fun _ => []⟩

/-- `broadcast(message)`: serialize once and `client.send` to every member
of `clients`, with each send wrapped in `try { } catch { }`; `failing` is
the set of transports whose send throws during this call (broken pipes).
The client set itself is not touched. -/
def broadcastFrame (h : HubState) (m : ServerMessage) (failing : List Nat) : HubState :=
  { clients := h.clients,
    logs := fun v => if v ∈ h.clients ∧ v ∉ failing then h.logs v ++ [m] else h.logs v }

/-- The `websocket.open` handler: `clients.add(ws)` (set semantics) then an
initial empty `output` frame is sent to the new viewer only. -/
def addViewer (h : HubState) (v : Nat) : HubState :=
  { clients := if v ∈ h.clients then h.clients else h.clients ++ [v],
    logs := Function.update h.logs v (h.logs v ++ [ServerMessage.output []]) }

/-- The `websocket.close` handler: `clients.delete(ws)`. -/
def removeViewer (h : HubState) (v : Nat) : HubState :=
  { clients := h.clients.erase v, logs := h.logs }

/-- One externally triggered hub operation: a viewer connecting, a viewer
transport closing, or a broadcast (with the set of transports whose send
throws during it). -/
inductive HubOp where
  | openViewer (v : Nat)
  | closeViewer (v : Nat)
  | broadcast (m : ServerMessage) (failing : List Nat)

def applyOp (h : HubState) : HubOp → HubState
  | HubOp.openViewer v => addViewer h v
  | HubOp.closeViewer v => removeViewer h v
  | HubOp.broadcast m failing => broadcastFrame h m failing

def runHubFrom (h : HubState) : List HubOp → HubState
  | [] => h
  | op :: ops => runHubFrom (applyOp h op) ops

def runHub (ops : List HubOp) : HubState := runHubFrom HubState.init ops

theorem broadcastRun_logs (fs : List ServerMessage) :
    ∀ h : HubState,
      (runHubFrom h (fs.map fun m => HubOp.broadcast m [])).clients = h.clients ∧
      ∀ w ∈ h.clients,
        (runHubFrom h (fs.map fun m => HubOp.broadcast m [])).logs w = h.logs w ++ fs := by
  induction fs with
  | nil => intro h; simp [runHubFrom]
  | cons f fs ih =>
    intro h
    have step := ih (broadcastFrame h f [])
    constructor
    · simpa [runHubFrom, applyOp, broadcastFrame] using step.1
    · intro w hw
      have hw2 : w ∈ (broadcastFrame h f []).clients := hw
      have := step.2 w hw2
      simp only [List.map_cons, runHubFrom, applyOp] at this ⊢
      rw [this]
      simp [broadcastFrame, hw]

/-- C5 (as stated) is refuted here: after a broadcast during which viewer
1's send throws, the hub state is unchanged apart from delivery logs — in
particular viewer 1 is still a member of `clients` and nothing in the
hub's state records a pending removal.  `broadcast` merely ignores the
error (`catch { /* Ignore broken pipes */ }`); a viewer only leaves the
set via the transport's own `close` event (`removeViewer`).  Delivery to
viewer 2 and the absence of a thrown error do hold (see the amended
theorem). -/
theorem C5_broadcast_failure_counterexample :
    (applyOp (runHub [HubOp.openViewer 1, HubOp.openViewer 2])
        (HubOp.broadcast (ServerMessage.output [104]) [1])).clients =
      (runHub [HubOp.openViewer 1, HubOp.openViewer 2]).clients ∧
    (1 : Nat) ∈ (applyOp (runHub [HubOp.openViewer 1, HubOp.openViewer 2])
        (HubOp.broadcast (ServerMessage.output [104]) [1])).clients := by
  constructor
  · rfl
  · decide

/-- C5 (amended): for every broadcast and every pair of registered viewers,
a write failure on A's transport does not prevent delivery of the same
frame to B in the same call and does not cause `broadcast` to throw (the
per-viewer send is wrapped in try/catch, so `broadcastFrame` is total);
the failing viewer is NOT removed or scheduled for removal by `broadcast`
itself — the client set is unchanged, and the failing viewer leaves the
set only when its transport's `close` event fires. -/
theorem C5_broadcast_failure_isolated (h : HubState) (m : ServerMessage)
    (failing : List Nat) (b : Nat) (hb : b ∈ h.clients) (hnf : b ∉ failing) :
    (broadcastFrame h m failing).logs b = h.logs b ++ [m] ∧
    (broadcastFrame h m failing).clients = h.clients := by
  constructor
  · simp [broadcastFrame, hb, hnf]
  · rfl

/-- Witness for C5 (amended): viewers 1 and 2 are registered, viewer 1's
send throws, viewer 2 still receives the frame and the set is unchanged. -/
theorem C5_broadcast_failure_isolated_witness :
    (2 : Nat) ∈ (runHub [HubOp.openViewer 1, HubOp.openViewer 2]).clients ∧
    (2 : Nat) ∉ [1] ∧
    ((broadcastFrame (runHub [HubOp.openViewer 1, HubOp.openViewer 2])
        (ServerMessage.output [104]) [1]).logs 2 =
      (runHub [HubOp.openViewer 1, HubOp.openViewer 2]).logs 2 ++ [ServerMessage.output [104]] ∧
    (broadcastFrame (runHub [HubOp.openViewer 1, HubOp.openViewer 2])
        (ServerMessage.output [104]) [1]).clients =
      (runHub [HubOp.openViewer 1, HubOp.openViewer 2]).clients) :=
  ⟨by decide, by decide,
    C5_broadcast_failure_isolated (runHub [HubOp.openViewer 1, HubOp.openViewer 2])
      (ServerMessage.output [104]) [1] 2 (by decide) (by decide)⟩

/-- C8: when a fresh viewer connects, it is added to `clients` and sent
exactly one initial `output` frame with empty text; none of the output
broadcast before its registration is replayed to it; and over any
subsequent sequence of broadcasts it receives exactly those frames, in
broadcast order — the same frames, in the same order, as every other
registered viewer receives from that point on. -/
theorem C8_viewer_registration (ops : List HubOp) (v : Nat) (fs : List ServerMessage)
    (hv : v ∉ (runHub ops).clients) (hlog : (runHub ops).logs v = []) :
    v ∈ (applyOp (runHub ops) (HubOp.openViewer v)).clients ∧
    (applyOp (runHub ops) (HubOp.openViewer v)).logs v = [ServerMessage.output []] ∧
    (runHubFrom (applyOp (runHub ops) (HubOp.openViewer v))
        (fs.map fun m => HubOp.broadcast m [])).logs v =
      ServerMessage.output [] :: fs ∧
    ∀ w ∈ (applyOp (runHub ops) (HubOp.openViewer v)).clients,
      (runHubFrom (applyOp (runHub ops) (HubOp.openViewer v))
          (fs.map fun m => HubOp.broadcast m [])).logs w =
        (applyOp (runHub ops) (HubOp.openViewer v)).logs w ++ fs := by
  have hmem : v ∈ (applyOp (runHub ops) (HubOp.openViewer v)).clients := by
    simp [applyOp, addViewer, hv]
  have hinit : (applyOp (runHub ops) (HubOp.openViewer v)).logs v =
      [ServerMessage.output []] := by
    simp [applyOp, addViewer, hlog]
  have hrun := broadcastRun_logs fs (applyOp (runHub ops) (HubOp.openViewer v))
  refine ⟨hmem, hinit, ?_, hrun.2⟩
  rw [hrun.2 v hmem, hinit]
  rfl

/-- Witness for C8: one viewer (0) is already connected, viewer 1 connects,
then two frames are broadcast; viewer 1 receives exactly the initial empty
frame followed by those two frames. -/
theorem C8_viewer_registration_witness :
    (1 : Nat) ∉ (runHub [HubOp.openViewer 0]).clients ∧
    (runHub [HubOp.openViewer 0]).logs 1 = [] ∧
    ((1 : Nat) ∈ (applyOp (runHub [HubOp.openViewer 0]) (HubOp.openViewer 1)).clients ∧
      (applyOp (runHub [HubOp.openViewer 0]) (HubOp.openViewer 1)).logs 1 =
        [ServerMessage.output []] ∧
      (runHubFrom (applyOp (runHub [HubOp.openViewer 0]) (HubOp.openViewer 1))
          ([ServerMessage.output [104], ServerMessage.output [105]].map
            fun m => HubOp.broadcast m [])).logs 1 =
        ServerMessage.output [] :: [ServerMessage.output [104], ServerMessage.output [105]] ∧
      ∀ w ∈ (applyOp (runHub [HubOp.openViewer 0]) (HubOp.openViewer 1)).clients,
        (runHubFrom (applyOp (runHub [HubOp.openViewer 0]) (HubOp.openViewer 1))
            ([ServerMessage.output [104], ServerMessage.output [105]].map
              fun m => HubOp.broadcast m [])).logs w =
          (applyOp (runHub [HubOp.openViewer 0]) (HubOp.openViewer 1)).logs w ++
            [ServerMessage.output [104], ServerMessage.output [105]]) :=
  ⟨by decide, rfl,
    C8_viewer_registration [HubOp.openViewer 0] 1
      [ServerMessage.output [104], ServerMessage.output [105]] (by decide) rfl⟩

/-- `PtyProxy.stop` acts on the host subprocess, which is either still
running or already exited. -/
inductive ProcState where
  | running
  | exited
deriving DecidableEq

/-- `subprocess.kill()`: terminates a running child; on an already-exited
child the call may raise (the process is gone), modelled as `Except`. -/
def subprocessKill : ProcState → Except Unit ProcState
  | ProcState.running => Except.ok ProcState.exited
  | ProcState.exited => Except.error ()

/-- `stop()` on the PTY proxy handle: `try { subprocess.kill() } catch {}`
— any error from `kill` is swallowed, so `stop` is a total function on the
process state and never throws. -/
def PtyProxy.stop (s : ProcState) : ProcState :=
  match subprocessKill s with
  | Except.ok t => t
  | Except.error _ => s

/-- C9: `stop()` is idempotent — calling it twice gives the same process
state as calling it once — and calling it on an already-exited child is a
no-op rather than an error; being a total Lean function, it cannot throw
or hang. -/
theorem C9_stop_idempotent :
    (∀ s : ProcState, PtyProxy.stop (PtyProxy.stop s) = PtyProxy.stop s) ∧
    PtyProxy.stop ProcState.exited = ProcState.exited := by
  constructor
  · intro s; cases s <;> rfl
  · rfl

/-- A JavaScript number: NaN, a signed infinity, or a finite value
(every IEEE-754 finite double is a rational). -/
inductive JSNum where
  | nan : JSNum
  | inf : Bool → JSNum
  | num : ℚ → JSNum
deriving DecidableEq

/-- `Number.isFinite`. -/
def JSNum.isFiniteB : JSNum → Bool
  | JSNum.num _ => true
  | _ => false

/-- The JS comparison `x > 0` (false on NaN, true on +Infinity). -/
def JSNum.gtZeroB : JSNum → Bool
  | JSNum.num q => decide (0 < q)
  | JSNum.inf pos => pos
  | JSNum.nan => false

/-- `Math.floor` (only ever applied to finite values in the guarded code
path; non-finite inputs are given a junk value of 0). -/
def JSNum.floorInt : JSNum → Int
  | JSNum.num q => Rat.floor q
  | _ => 0

/-- `Number.isInteger`. -/
def JSNum.isIntegerB : JSNum → Bool
  | JSNum.num q => q.den == 1
  | _ => false

/-- An inbound viewer message after JSON parsing (`ClientMessage` in the
source). -/
inductive ClientMessage where
  | input (data : String)
  | resize (cols rows : JSNum)
deriving DecidableEq

/-- A command forwarded to the PTY host protocol client: `ptyProxy.write`
with the input text, or `ptyProxy.resize` with integral dimensions. -/
inductive HostCmd where
  | write (data : String)
  | resize (cols rows : Int)
deriving DecidableEq

/-- `handleClientMessage`: a payload that failed to parse (`none`) is
logged and dropped; `input` is forwarded verbatim; `resize` is forwarded
only when both dimensions are finite and `> 0`, with `Math.floor` applied
to each; otherwise it is dropped silently.  The result is the command
forwarded to the PTY proxy, if any — there is no error path. -/
def handleClientMessage : Option ClientMessage → Option HostCmd
  | Option.none => Option.none
  | some (ClientMessage.input d) => some (HostCmd.write d)
  | some (ClientMessage.resize c r) =>
    if c.isFiniteB && r.isFiniteB && c.gtZeroB && r.gtZeroB then
      some (HostCmd.resize c.floorInt r.floorInt)
    else Option.none

/-- C3 (as stated) is refuted: the resize `{cols: 0.5, rows: 24}` is
finite and `> 0` in both coordinates, so the guard passes, and the
truncated value actually forwarded for `cols` is `Math.floor(0.5) = 0`,
which is not a positive integer — the claim that every value forwarded to
`sendResize` is a positive integer fails. -/
theorem C3_resize_counterexample :
    handleClientMessage (some (ClientMessage.resize (JSNum.num (mkRat 1 2)) (JSNum.num 24))) =
      some (HostCmd.resize 0 24) ∧ ¬ (0 < (0 : Int)) := by
  constructor
  · decide
  · decide

/-- C3 (amended): an inbound resize frame is forwarded to the PTY host if
and only if `cols` and `rows` are both finite and `> 0`; when forwarded,
the values sent are the floors of the originals — these are always
nonnegative integers, and are positive whenever the original values are at
least 1 (so `{cols: 80.7, rows: -1}` is dropped and `{cols: 80, rows: 24}`
is forwarded as `{cols: 80, rows: 24}`), but a fractional value strictly
between 0 and 1 is forwarded as 0.  Invalid resize frames are dropped
silently, with no error propagated to the viewer. -/
theorem C3_resize_validation (c r : JSNum) :
    ((handleClientMessage (some (ClientMessage.resize c r))).isSome ↔
      (c.isFiniteB && r.isFiniteB && c.gtZeroB && r.gtZeroB) = true) ∧
    (∀ x y : Int, handleClientMessage (some (ClientMessage.resize c r)) =
        some (HostCmd.resize x y) →
      x = c.floorInt ∧ y = r.floorInt ∧ 0 ≤ x ∧ 0 ≤ y) ∧
    (∀ q1 q2 : ℚ, c = JSNum.num q1 → r = JSNum.num q2 → 1 ≤ q1 → 1 ≤ q2 →
      handleClientMessage (some (ClientMessage.resize c r)) =
        some (HostCmd.resize (Rat.floor q1) (Rat.floor q2)) ∧
      0 < Rat.floor q1 ∧ 0 < Rat.floor q2) := by
  refine ⟨?_, ?_, ?_⟩
  · constructor
    · intro h
      by_contra hguard
      simp [handleClientMessage, hguard] at h
    · intro h
      simp [handleClientMessage, h]
  · intro x y h
    by_cases hguard : (c.isFiniteB && r.isFiniteB && c.gtZeroB && r.gtZeroB) = true
    · simp only [handleClientMessage, hguard, if_pos, Option.some.injEq,
        HostCmd.resize.injEq] at h
      obtain ⟨hx, hy⟩ := h
      have hguard2 := hguard
      simp only [Bool.and_eq_true] at hguard2
      obtain ⟨⟨⟨hcf, hrf⟩, hcz⟩, hrz⟩ := hguard2
      refine ⟨hx.symm, hy.symm, ?_, ?_⟩
      · subst hx
        cases c with
        | num q =>
          have hq : (0 : ℚ) < q := by
            simpa [JSNum.gtZeroB] using hcz
          have : (0 : Int) ≤ Rat.floor q :=
            Rat.le_floor.mpr (by exact_mod_cast hq.le)
          simpa [JSNum.floorInt] using this
        | nan => simp [JSNum.isFiniteB] at hcf
        | inf b => simp [JSNum.isFiniteB] at hcf
      · subst hy
        cases r with
        | num q =>
          have hq : (0 : ℚ) < q := by
            simpa [JSNum.gtZeroB] using hrz
          have : (0 : Int) ≤ Rat.floor q :=
            Rat.le_floor.mpr (by exact_mod_cast hq.le)
          simpa [JSNum.floorInt] using this
        | nan => simp [JSNum.isFiniteB] at hrf
        | inf b => simp [JSNum.isFiniteB] at hrf
    · simp [handleClientMessage, hguard] at h
  · rintro q1 q2 rfl rfl h1 h2
    have hz1 : (0 : ℚ) < q1 := lt_of_lt_of_le one_pos h1
    have hz2 : (0 : ℚ) < q2 := lt_of_lt_of_le one_pos h2
    refine ⟨?_, ?_, ?_⟩
    · simp [handleClientMessage, JSNum.isFiniteB, JSNum.gtZeroB, JSNum.floorInt, hz1, hz2]
    · exact Rat.le_floor.mpr (by exact_mod_cast h1)
    · exact Rat.le_floor.mpr (by exact_mod_cast h2)

/-- Witness for C3 (amended) at `{cols: 80, rows: 24}`. -/
theorem C3_resize_validation_witness :
    (JSNum.num 80 = JSNum.num (80 : ℚ)) ∧
    ((handleClientMessage (some (ClientMessage.resize (JSNum.num 80) (JSNum.num 24))) =
        some (HostCmd.resize (Rat.floor (80 : ℚ)) (Rat.floor (24 : ℚ))) ∧
      0 < Rat.floor (80 : ℚ) ∧ 0 < Rat.floor (24 : ℚ))) :=
  ⟨rfl, (C3_resize_validation (JSNum.num 80) (JSNum.num 24)).2.2 80 24 rfl rfl
    (by norm_num) (by norm_num)⟩

/-- JavaScript whitespace as it can occur around a protocol line (space,
tab, carriage return, line feed, form feed, vertical tab). -/
def isWsChar (c : Char) : Bool :=
  c = ' ' || c = '\t' || c = '\r' || c = '\n' || c = '\x0c' || c = '\x0b'

/-- `String.prototype.trim()`: strip leading and trailing whitespace. -/
def jsTrim (s : String) : String :=
  String.mk (((s.toList.dropWhile isWsChar).reverse.dropWhile isWsChar).reverse)

/-- The body of the `forwardOutput` line loop for one complete line of the
host's output stream: trim it, skip it when blank, otherwise attempt to
parse it as a JSON `ProxyEvent` — the parse attempt is wrapped in
try/catch, so a failed parse (`parse` returning `none`, modelling the
thrown `JSON.parse` error being logged) contributes no event. -/
def processLine (parse : String → Option ProxyEvent) (line : String) : Option ProxyEvent :=
  let t := jsTrim line
  if t = "" then Option.none else parse t

/-- The `forwardOutput` loop over the newline-separated lines extracted
from the host's stream: every line is handed to `processLine`, and the
events of successfully parsed lines are delivered to `onEvent` in order;
a failed line is logged and the loop continues with the next line. -/
def eventsOfLines (parse : String → Option ProxyEvent) (lines : List String) :
    List ProxyEvent :=
  lines.filterMap (processLine parse)

/-- The `websocket.message` handler for one inbound viewer payload: it
only ever calls `handleClientMessage`, so the hub state (in particular the
`clients` set) is untouched no matter what the payload is. -/
def handleViewerMessage (h : HubState) (parsed : Option ClientMessage) :
    HubState × Option HostCmd :=
  (h, handleClientMessage parsed)

theorem processLine_none (parse : String → Option ProxyEvent) (line : String)
    (h : parse (jsTrim line) = Option.none) : processLine parse line = Option.none := by
  by_cases ht : jsTrim line = ""
  · simp [processLine, ht]
  · simp [processLine, ht, h]

/-- C7: a line from the PTY host's output stream that fails to parse as
JSON contributes no event, and the events extracted from the surrounding
lines — before and after it — are exactly the same as if the bad line were
absent (the loop is not terminated and no other message is affected); an
inbound viewer payload that is not a valid serialized frame leaves the hub
state unchanged (the viewer, still registered, keeps its connection) and
forwards nothing to the PTY host. -/
theorem C7_malformed_messages_discarded (parse : String → Option ProxyEvent)
    (pre post : List String) (line : String) (hline : parse (jsTrim line) = Option.none)
    (h : HubState) (v : Nat) (hv : v ∈ h.clients) :
    eventsOfLines parse (pre ++ line :: post) =
      eventsOfLines parse pre ++ eventsOfLines parse post ∧
    (handleViewerMessage h Option.none).1 = h ∧
    v ∈ (handleViewerMessage h Option.none).1.clients ∧
    (handleViewerMessage h Option.none).2 = Option.none := by
  refine ⟨?_, rfl, hv, rfl⟩
  simp [eventsOfLines, List.filterMap_append, List.filterMap_cons,
    processLine_none parse line hline]

/-- Witness for C7: a host stream containing a well-formed exit line
surrounded by a malformed line, against a hub with one registered
viewer. -/
theorem C7_malformed_messages_discarded_witness :
    ((fun s => if s = "E" then some (ProxyEvent.exitEv (some 0) none) else Option.none)
        (jsTrim "bogus") = Option.none) ∧
    (1 : Nat) ∈ (HubState.mk [1] (fun _ => [])).clients ∧
    (eventsOfLines
        (fun s => if s = "E" then some (ProxyEvent.exitEv (some 0) none) else Option.none)
        (["E"] ++ "bogus" :: ["E"]) =
      eventsOfLines
        (fun s => if s = "E" then some (ProxyEvent.exitEv (some 0) none) else Option.none)
        ["E"] ++
      eventsOfLines
        (fun s => if s = "E" then some (ProxyEvent.exitEv (some 0) none) else Option.none)
        ["E"] ∧
    (handleViewerMessage (HubState.mk [1] (fun _ => [])) Option.none).1 =
      HubState.mk [1] (fun _ => []) ∧
    (1 : Nat) ∈ (handleViewerMessage (HubState.mk [1] (fun _ => [])) Option.none).1.clients ∧
    (handleViewerMessage (HubState.mk [1] (fun _ => [])) Option.none).2 = Option.none) :=
  ⟨by decide, by decide,
    C7_malformed_messages_discarded
      (fun s => if s = "E" then some (ProxyEvent.exitEv (some 0) none) else Option.none)
      ["E"] ["E"] "bogus" (by decide) (HubState.mk [1] (fun _ => [])) 1 (by decide)⟩

/-- Accumulate a decimal digit string into a natural number; any
non-digit character makes the whole parse fail. -/
def digitsToNat : Nat → List Char → Option Nat
  | acc, [] => some acc
  | acc, c :: cs =>
    if c.isDigit then digitsToNat (acc * 10 + (c.toNat - 48)) cs else Option.none

/-- Split a character list at the first dot: the characters before it and,
when a dot occurs, the characters after it. -/
def splitDot : List Char → List Char × Option (List Char)
  | [] => ([], Option.none)
  | c :: cs =>
    if c = '.' then ([], some cs)
    else
      let r := splitDot cs
      (c :: r.1, r.2)

/-- Split a character list at the first `e`/`E`: the mantissa characters
and, when an exponent marker occurs, the characters after it. -/
def splitExp : List Char → List Char × Option (List Char)
  | [] => ([], Option.none)
  | c :: cs =>
    if c = 'e' ∨ c = 'E' then ([], some cs)
    else
      let r := splitExp cs
      (c :: r.1, r.2)

/-- Value of a hexadecimal digit. -/
def hexDigitVal (c : Char) : Option Nat :=
  if c.isDigit then some (c.toNat - 48)
  else if 'a' ≤ c ∧ c ≤ 'f' then some (c.toNat - 87)
  else if 'A' ≤ c ∧ c ≤ 'F' then some (c.toNat - 55)
  else Option.none

/-- Value of an octal digit. -/
def octDigitVal (c : Char) : Option Nat :=
  if '0' ≤ c ∧ c ≤ '7' then some (c.toNat - 48) else Option.none

/-- Value of a binary digit. -/
def binDigitVal (c : Char) : Option Nat :=
  if c = '0' ∨ c = '1' then some (c.toNat - 48) else Option.none

/-- Accumulate a digit string in an arbitrary base; any character without
a digit value makes the whole parse fail. -/
def digitsToNatBase (val : Char → Option Nat) (base : Nat) : Nat → List Char → Option Nat
  | acc, [] => some acc
  | acc, c :: cs =>
    match val c with
    | some d => digitsToNatBase val base (acc * base + d) cs
    | Option.none => Option.none

/-- The exact rational value `± (n + f / 10^k) × 10^exp` of a decimal
literal with integer part `n`, fractional digits of value `f` and length
`k`, and exponent `exp`. -/
def jsScale (neg : Bool) (n f k : Nat) (e : Int) : ℚ :=
  mkRat ((if neg then -1 else 1) * ((n * 10 ^ k + f : Nat) : Int) * 10 ^ e.toNat)
    (10 ^ k * 10 ^ (-e).toNat)

/-- A `StrDecimalLiteral`: optional sign, then digits with an optional
dot (digits required on at least one side) and an optional `e`/`E`
exponent with its own optional sign and mandatory digits.  Anything else
is NaN. -/
def jsDecimalLiteral (t : List Char) : JSNum :=
  let neg : Bool := t.head? = some (Char.ofNat 45)
  let body := if t.head? = some (Char.ofNat 45) ∨ t.head? = some (Char.ofNat 43) then
      t.tail
    else t
  let se := splitExp body
  let expVal : Option Int :=
    match se.2 with
    | Option.none => some 0
    | some es =>
      let eneg : Bool := es.head? = some (Char.ofNat 45)
      let ebody := if es.head? = some (Char.ofNat 45) ∨ es.head? = some (Char.ofNat 43) then
          es.tail
        else es
      if ebody.isEmpty then Option.none
      else
        match digitsToNat 0 ebody with
        | some e => some (if eneg then -(e : Int) else (e : Int))
        | Option.none => Option.none
  match expVal with
  | Option.none => JSNum.nan
  | some e =>
    let d := splitDot se.1
    match d.2 with
    | Option.none =>
      if se.1.isEmpty then JSNum.nan
      else
        match digitsToNat 0 se.1 with
        | some n => JSNum.num (jsScale neg n 0 0 e)
        | Option.none => JSNum.nan
    | some frac =>
      if d.1.isEmpty && frac.isEmpty then JSNum.nan
      else
        match digitsToNat 0 d.1, digitsToNat 0 frac with
        | some n, some f => JSNum.num (jsScale neg n f frac.length e)
        | _, _ => JSNum.nan

/-- `Number(string)` as used by `parseArgs` on the `--port` value,
following the ECMAScript `StringNumericLiteral` grammar: the
whitespace-trimmed empty string is 0; `Infinity` with an optional sign is
an infinity; an unsigned `0x`/`0X`, `0o`/`0O` or `0b`/`0B` literal is the
integer it denotes; otherwise an optionally signed decimal literal with
optional fraction and exponent is its value; everything else is NaN.  The
model computes the exact rational value rather than the nearest IEEE-754
double, so acceptance decisions that depend on double rounding (inputs
with more significant digits than a double holds) are outside the model;
integer ports in `[1, 65535]` are always exact in both. -/
def jsNumberOfString (s : String) : JSNum :=
  let t := ((s.toList.dropWhile isWsChar).reverse.dropWhile isWsChar).reverse
  if t.isEmpty then JSNum.num 0
  else if t = "Infinity".toList ∨ t = "+Infinity".toList then JSNum.inf true
  else if t = "-Infinity".toList then JSNum.inf false
  else
    match t with
    | '0' :: c :: ds =>
      if c = 'x' ∨ c = 'X' then
        if ds.isEmpty then JSNum.nan
        else
          match digitsToNatBase hexDigitVal 16 0 ds with
          | some n => JSNum.num ((n : Int) : ℚ)
          | Option.none => JSNum.nan
      else if c = 'o' ∨ c = 'O' then
        if ds.isEmpty then JSNum.nan
        else
          match digitsToNatBase octDigitVal 8 0 ds with
          | some n => JSNum.num ((n : Int) : ℚ)
          | Option.none => JSNum.nan
      else if c = 'b' ∨ c = 'B' then
        if ds.isEmpty then JSNum.nan
        else
          match digitsToNatBase binDigitVal 2 0 ds with
          | some n => JSNum.num ((n : Int) : ℚ)
          | Option.none => JSNum.nan
      else jsDecimalLiteral t
    | _ => jsDecimalLiteral t

/-- The port validation `Number.isInteger(port) && port > 0 && port <=
65535` (the source tests the negation and calls `usage()`). -/
def portValid : JSNum → Bool
  | JSNum.num q => q.den == 1 && decide (0 < q) && decide (q ≤ 65535)
  | _ => false

/-- The result of `parseArgs` (`CliOptions` in the source). -/
structure CliOptions where
  port : JSNum
  command : List String
  autoOpen : Bool
deriving DecidableEq

/-- Either a successful parse or `usage(code)` + `process.exit(code)`
(the usage text is printed in both the code-0 and code-1 cases). -/
inductive ParseOutcome where
  | ok (opts : CliOptions)
  | exitWith (code : Nat)
deriving DecidableEq

/-- The `parseArgs` scan, carrying the current `port` and `autoOpen`
values: `--` makes everything after it the command; `--port`/`-p`
consumes the next token (missing or empty token, or a value failing
`portValid`, prints usage and exits 1); `--no-open` clears `autoOpen`;
`--help`/`-h` prints usage and exits 0; the first unrecognized token
starts the command.  An exhausted scan with no command tokens prints
usage and exits 1. -/
def parseArgsLoop : List String → JSNum → Bool → ParseOutcome
  | [], _, _ => ParseOutcome.exitWith 1
  | arg :: rest, port, auto =>
    if arg = "--" then
      if rest.isEmpty then ParseOutcome.exitWith 1
      else ParseOutcome.ok ⟨port, rest, auto⟩
    else if arg = "--port" ∨ arg = "-p" then
      match rest with
      | [] => ParseOutcome.exitWith 1
      | v :: rest2 =>
        if v = "" then ParseOutcome.exitWith 1
        else if portValid (jsNumberOfString v) then
          parseArgsLoop rest2 (jsNumberOfString v) auto
        else ParseOutcome.exitWith 1
    else if arg = "--no-open" then parseArgsLoop rest port false
    else if arg = "--help" ∨ arg = "-h" then ParseOutcome.exitWith 0
    else ParseOutcome.ok ⟨port, arg :: rest, auto⟩

/-- `parseArgs(argv)` with the defaults `port = 8080`, `autoOpen = true`. -/
def parseArgs (argv : List String) : ParseOutcome :=
  parseArgsLoop argv (JSNum.num 8080) true

/-- The port value held by the scan is a finite integer in `[1, 65535]`. -/
def PortOk (p : JSNum) : Prop :=
  ∃ n : ℕ, p = JSNum.num (n : ℚ) ∧ 1 ≤ n ∧ n ≤ 65535

theorem portValid_portOk (p : JSNum) (h : portValid p = true) : PortOk p := by
  cases p with
  | num q =>
    simp only [portValid, Bool.and_eq_true, beq_iff_eq, decide_eq_true_eq] at h
    obtain ⟨⟨hden, hpos⟩, hle⟩ := h
    have hnum : (q.num : ℚ) = q := Rat.coe_int_num_of_den_eq_one hden
    have hnpos : 0 < q.num := Rat.num_pos.mpr hpos
    have hnle : q.num ≤ 65535 := by
      have h2 : (q.num : ℚ) ≤ 65535 := by rw [hnum]; exact hle
      exact_mod_cast h2
    have h0 : ((q.num.toNat : ℕ) : ℤ) = q.num := Int.toNat_of_nonneg hnpos.le
    have hq : q = ((q.num.toNat : ℕ) : ℚ) := by
      have h1 : ((q.num.toNat : ℕ) : ℚ) = ((q.num : ℤ) : ℚ) := by exact_mod_cast h0
      rw [h1, hnum]
    exact ⟨q.num.toNat, congrArg JSNum.num hq, by omega, by omega⟩
  | nan => simp [portValid] at h
  | inf b => simp [portValid] at h

theorem parseArgsLoop_port_inv (fuel : Nat) :
    ∀ (argv : List String), argv.length ≤ fuel →
    ∀ (p : JSNum) (a : Bool) (o : CliOptions), PortOk p →
      parseArgsLoop argv p a = ParseOutcome.ok o → PortOk o.port := by
  induction fuel with
  | zero =>
    intro argv hlen p a o _ h
    obtain rfl : argv = [] := List.length_eq_zero.mp (Nat.le_zero.mp hlen)
    simp [parseArgsLoop] at h
  | succ n ih =>
    intro argv hlen p a o hp h
    match argv with
    | [] => simp [parseArgsLoop] at h
    | arg :: rest =>
      unfold parseArgsLoop at h
      by_cases hc1 : arg = "--"
      · rw [if_pos hc1] at h
        by_cases hemp : rest.isEmpty = true
        · rw [if_pos hemp] at h
          exact ParseOutcome.noConfusion h
        · rw [if_neg hemp] at h
          cases h
          exact hp
      · rw [if_neg hc1] at h
        by_cases hc2 : arg = "--port" ∨ arg = "-p"
        · rw [if_pos hc2] at h
          cases rest with
          | nil => exact ParseOutcome.noConfusion h
          | cons v rest2 =>
            have h2 : (if v = "" then ParseOutcome.exitWith 1
                else if portValid (jsNumberOfString v) = true then
                  parseArgsLoop rest2 (jsNumberOfString v) a
                else ParseOutcome.exitWith 1) = ParseOutcome.ok o := h
            by_cases hve : v = ""
            · rw [if_pos hve] at h2
              exact ParseOutcome.noConfusion h2
            · rw [if_neg hve] at h2
              by_cases hvalid : portValid (jsNumberOfString v) = true
              · rw [if_pos hvalid] at h2
                have hlen2 : rest2.length ≤ n := by simp at hlen; omega
                exact ih rest2 hlen2 (jsNumberOfString v) a o
                  (portValid_portOk _ hvalid) h2
              · rw [if_neg hvalid] at h2
                exact ParseOutcome.noConfusion h2
        · rw [if_neg hc2] at h
          by_cases hc3 : arg = "--no-open"
          · rw [if_pos hc3] at h
            have hlen2 : rest.length ≤ n := by simp at hlen; omega
            exact ih rest hlen2 p false o hp h
          · rw [if_neg hc3] at h
            by_cases hc4 : arg = "--help" ∨ arg = "-h"
            · rw [if_pos hc4] at h
              exact ParseOutcome.noConfusion h
            · rw [if_neg hc4] at h
              cases h
              exact hp

/-- The flag-consuming steps of the `parseArgs` loop:
`ConsumesFlags fl p a p2 a2` says that starting the scan at some position
with state `(port, autoOpen) = (p, a)`, the token sequence `fl` is
consumed entirely by recognized-flag branches (`--no-open`, or
`--port`/`-p` with a value that passes validation) leaving the state
`(p2, a2)` when the scan reaches whatever follows `fl`. -/
inductive ConsumesFlags : List String → JSNum → Bool → JSNum → Bool → Prop where
  | nil (p : JSNum) (a : Bool) : ConsumesFlags [] p a p a
  | noOpen (rest : List String) (p : JSNum) (a : Bool) (p2 : JSNum) (a2 : Bool)
      (h : ConsumesFlags rest p false p2 a2) :
      ConsumesFlags ("--no-open" :: rest) p a p2 a2
  | portFlag (f v : String) (rest : List String) (p : JSNum) (a : Bool)
      (p2 : JSNum) (a2 : Bool)
      (hf : f = "--port" ∨ f = "-p") (hv : v ≠ "")
      (hvalid : portValid (jsNumberOfString v) = true)
      (h : ConsumesFlags rest (jsNumberOfString v) a p2 a2) :
      ConsumesFlags (f :: v :: rest) p a p2 a2

theorem parseArgsLoop_cons (arg : String) (rest : List String) (p : JSNum) (a : Bool) :
    parseArgsLoop (arg :: rest) p a =
      if arg = "--" then
        (if rest.isEmpty then ParseOutcome.exitWith 1 else ParseOutcome.ok ⟨p, rest, a⟩)
      else if arg = "--port" ∨ arg = "-p" then
        (match rest with
         | [] => ParseOutcome.exitWith 1
         | v :: rest2 =>
           if v = "" then ParseOutcome.exitWith 1
           else if portValid (jsNumberOfString v) then
             parseArgsLoop rest2 (jsNumberOfString v) a
           else ParseOutcome.exitWith 1)
      else if arg = "--no-open" then parseArgsLoop rest p false
      else if arg = "--help" ∨ arg = "-h" then ParseOutcome.exitWith 0
      else ParseOutcome.ok ⟨p, arg :: rest, a⟩ := by
  cases rest with
  | nil => simp only [parseArgsLoop]
  | cons v rest2 => simp only [parseArgsLoop]

theorem consumesFlags_run {fl : List String} {p : JSNum} {a : Bool} {p2 : JSNum} {a2 : Bool}
    (h : ConsumesFlags fl p a p2 a2) :
    ∀ suffix : List String, parseArgsLoop (fl ++ suffix) p a = parseArgsLoop suffix p2 a2 := by
  induction h with
  | nil p a => intro suffix; rfl
  | noOpen rest p a p2 a2 h ih =>
    intro suffix
    simp only [List.cons_append]
    rw [parseArgsLoop_cons, if_neg (by decide), if_neg (by decide), if_pos rfl]
    exact ih suffix
  | portFlag f v rest p a p2 a2 hf hv hvalid h ih =>
    intro suffix
    simp only [List.cons_append]
    rcases hf with rfl | rfl
    · rw [parseArgsLoop_cons, if_neg (by decide), if_pos (Or.inl rfl)]
      show (if v = "" then ParseOutcome.exitWith 1
        else if portValid (jsNumberOfString v) = true then
          parseArgsLoop (rest ++ suffix) (jsNumberOfString v) a
        else ParseOutcome.exitWith 1) = parseArgsLoop suffix p2 a2
      rw [if_neg hv, if_pos hvalid]
      exact ih suffix
    · rw [parseArgsLoop_cons, if_neg (by decide), if_pos (Or.inr rfl)]
      show (if v = "" then ParseOutcome.exitWith 1
        else if portValid (jsNumberOfString v) = true then
          parseArgsLoop (rest ++ suffix) (jsNumberOfString v) a
        else ParseOutcome.exitWith 1) = parseArgsLoop suffix p2 a2
      rw [if_neg hv, if_pos hvalid]
      exact ih suffix

theorem consumesFlags_port_const {fl : List String} {p : JSNum} {a : Bool} {p2 : JSNum}
    {a2 : Bool} (h : ConsumesFlags fl p a p2 a2) :
    (∀ x ∈ fl, x ≠ "--port" ∧ x ≠ "-p") → p2 = p := by
  induction h with
  | nil p a => intro _; rfl
  | noOpen rest p a p2 a2 h ih =>
    intro hnp
    exact ih fun x hx => hnp x (List.mem_cons_of_mem _ hx)
  | portFlag f v rest p a p2 a2 hf hv hvalid h ih =>
    intro hnp
    rcases hf with rfl | rfl
    · exact absurd rfl (hnp "--port" (List.mem_cons_self _ _)).1
    · exact absurd rfl (hnp "-p" (List.mem_cons_self _ _)).2

theorem parseArgsLoop_sep (p : JSNum) (a : Bool) (rest : List String) (h : rest ≠ []) :
    parseArgsLoop ("--" :: rest) p a = ParseOutcome.ok ⟨p, rest, a⟩ := by
  have hne : ¬ (rest.isEmpty = true) := by
    cases rest with
    | nil => exact absurd rfl h
    | cons x l => simp
  rw [parseArgsLoop_cons, if_pos rfl, if_neg hne]

theorem parseArgsLoop_unrec (p : JSNum) (a : Bool) (t : String) (rest : List String)
    (h1 : t ≠ "--") (h2 : t ≠ "--port") (h3 : t ≠ "-p") (h4 : t ≠ "--no-open")
    (h5 : t ≠ "--help") (h6 : t ≠ "-h") :
    parseArgsLoop (t :: rest) p a = ParseOutcome.ok ⟨p, t :: rest, a⟩ := by
  rw [parseArgsLoop_cons, if_neg h1, if_neg (not_or.mpr ⟨h2, h3⟩), if_neg h4,
    if_neg (not_or.mpr ⟨h5, h6⟩)]

theorem parseArgsLoop_help (p : JSNum) (a : Bool) (rest : List String) :
    parseArgsLoop ("--help" :: rest) p a = ParseOutcome.exitWith 0 := by
  rw [parseArgsLoop_cons, if_neg (by decide), if_neg (by decide), if_neg (by decide),
    if_pos (Or.inl rfl)]

theorem parseArgsLoop_badPort (p : JSNum) (a : Bool) (v : String) (rest : List String)
    (hv : portValid (jsNumberOfString v) = false) :
    parseArgsLoop ("--port" :: v :: rest) p a = ParseOutcome.exitWith 1 := by
  rw [parseArgsLoop_cons, if_neg (by decide), if_pos (Or.inl rfl)]
  show (if v = "" then ParseOutcome.exitWith 1
    else if portValid (jsNumberOfString v) = true then
      parseArgsLoop rest (jsNumberOfString v) a
    else ParseOutcome.exitWith 1) = ParseOutcome.exitWith 1
  by_cases hve : v = ""
  · rw [if_pos hve]
  · rw [if_neg hve, if_neg (by simp [hv])]

/-- C6: command-line parsing, stated over an arbitrary prefix `fl` of
consumed recognized flags (`ConsumesFlags`, starting from the defaults
port 8080 and autoOpen).  (1) the command is everything after the `--`
separator, whatever flags precede it; (2) every successful parse yields a
port that is an integer in `[1, 65535]`; (3) a token matching no
recognized flag starts the command from that point onward; (4) a missing
command — flags only, with or without a trailing `--` — exits with code 1
after printing usage; (5) `--help` after any flags exits with code 0
after printing usage; (6) a `--port` value that fails validation exits
with code 1 after printing usage, whatever flags precede it; (7) if no
`--port`/`-p` flag was consumed the port keeps its default 8080. -/
theorem C6_cli_parsing :
    (∀ (fl : List String) (p2 : JSNum) (a2 : Bool) (rest : List String),
      ConsumesFlags fl (JSNum.num 8080) true p2 a2 → rest ≠ [] →
      parseArgs (fl ++ "--" :: rest) = ParseOutcome.ok ⟨p2, rest, a2⟩) ∧
    (∀ (argv : List String) (o : CliOptions), parseArgs argv = ParseOutcome.ok o →
      ∃ n : ℕ, o.port = JSNum.num (n : ℚ) ∧ 1 ≤ n ∧ n ≤ 65535) ∧
    (∀ (fl : List String) (p2 : JSNum) (a2 : Bool) (t : String) (rest : List String),
      ConsumesFlags fl (JSNum.num 8080) true p2 a2 →
      t ≠ "--" → t ≠ "--port" → t ≠ "-p" → t ≠ "--no-open" → t ≠ "--help" → t ≠ "-h" →
      parseArgs (fl ++ t :: rest) = ParseOutcome.ok ⟨p2, t :: rest, a2⟩) ∧
    (∀ (fl : List String) (p2 : JSNum) (a2 : Bool),
      ConsumesFlags fl (JSNum.num 8080) true p2 a2 →
      parseArgs fl = ParseOutcome.exitWith 1 ∧
      parseArgs (fl ++ ["--"]) = ParseOutcome.exitWith 1) ∧
    (∀ (fl : List String) (p2 : JSNum) (a2 : Bool) (rest : List String),
      ConsumesFlags fl (JSNum.num 8080) true p2 a2 →
      parseArgs (fl ++ "--help" :: rest) = ParseOutcome.exitWith 0) ∧
    (∀ (fl : List String) (p2 : JSNum) (a2 : Bool) (v : String) (rest : List String),
      ConsumesFlags fl (JSNum.num 8080) true p2 a2 →
      portValid (jsNumberOfString v) = false →
      parseArgs (fl ++ "--port" :: v :: rest) = ParseOutcome.exitWith 1) ∧
    (∀ (fl : List String) (p2 : JSNum) (a2 : Bool),
      ConsumesFlags fl (JSNum.num 8080) true p2 a2 →
      (∀ x ∈ fl, x ≠ "--port" ∧ x ≠ "-p") → p2 = JSNum.num 8080) := by
  refine ⟨?_, ?_, ?_, ?_, ?_, ?_, ?_⟩
  · intro fl p2 a2 rest hfl hrest
    unfold parseArgs
    rw [consumesFlags_run hfl ("--" :: rest)]
    exact parseArgsLoop_sep p2 a2 rest hrest
  · intro argv o h
    exact parseArgsLoop_port_inv argv.length argv le_rfl (JSNum.num 8080) true o
      ⟨8080, congrArg JSNum.num (by norm_num), by norm_num, by norm_num⟩ h
  · intro fl p2 a2 t rest hfl h1 h2 h3 h4 h5 h6
    unfold parseArgs
    rw [consumesFlags_run hfl (t :: rest)]
    exact parseArgsLoop_unrec p2 a2 t rest h1 h2 h3 h4 h5 h6
  · intro fl p2 a2 hfl
    constructor
    · unfold parseArgs
      have h := consumesFlags_run hfl []
      rw [List.append_nil] at h
      rw [h]
      rfl
    · unfold parseArgs
      rw [consumesFlags_run hfl ["--"], parseArgsLoop_cons, if_pos rfl]
      rfl
  · intro fl p2 a2 rest hfl
    unfold parseArgs
    rw [consumesFlags_run hfl ("--help" :: rest)]
    exact parseArgsLoop_help p2 a2 rest
  · intro fl p2 a2 v rest hfl hv
    unfold parseArgs
    rw [consumesFlags_run hfl ("--port" :: v :: rest)]
    exact parseArgsLoop_badPort p2 a2 v rest hv
  · intro fl p2 a2 hfl hnp
    exact consumesFlags_port_const hfl hnp

/-- Witness for C6: each part applied at concrete command lines that put
flags before the command — `--port 8081 -- claude`, `--no-open bash`,
`--no-open` alone (missing command), `--no-open --help`, an invalid
`--port abc` after `--no-open`, and a hexadecimal `--port 0x50` (accepted
as port 80, as `Number()` does). -/
theorem C6_cli_parsing_witness :
    (["claude"] ≠ ([] : List String)) ∧
    parseArgs ["--port", "8081", "--", "claude"] =
      ParseOutcome.ok ⟨jsNumberOfString "8081", ["claude"], true⟩ ∧
    jsNumberOfString "8081" = JSNum.num 8081 ∧
    (∃ n : ℕ, (CliOptions.mk (jsNumberOfString "8081") ["claude"] true).port =
      JSNum.num (n : ℚ) ∧ 1 ≤ n ∧ n ≤ 65535) ∧
    ("bash" ≠ "--") ∧
    parseArgs ["--no-open", "bash", "-lc", "echo hi"] =
      ParseOutcome.ok ⟨JSNum.num 8080, ["bash", "-lc", "echo hi"], false⟩ ∧
    parseArgs ["--no-open"] = ParseOutcome.exitWith 1 ∧
    parseArgs ["--no-open", "--"] = ParseOutcome.exitWith 1 ∧
    parseArgs ["--no-open", "--help"] = ParseOutcome.exitWith 0 ∧
    (portValid (jsNumberOfString "abc") = false) ∧
    parseArgs ["--no-open", "--port", "abc", "--", "bash"] = ParseOutcome.exitWith 1 ∧
    jsNumberOfString "0x50" = JSNum.num 80 ∧
    parseArgs ["--port", "0x50", "--", "bash"] =
      ParseOutcome.ok ⟨jsNumberOfString "0x50", ["bash"], true⟩ := by
  have h := C6_cli_parsing
  have hport : ConsumesFlags ["--port", "8081"] (JSNum.num 8080) true
      (jsNumberOfString "8081") true :=
    ConsumesFlags.portFlag "--port" "8081" [] (JSNum.num 8080) true
      (jsNumberOfString "8081") true (Or.inl rfl) (by decide) (by decide)
      (ConsumesFlags.nil (jsNumberOfString "8081") true)
  have hhex : ConsumesFlags ["--port", "0x50"] (JSNum.num 8080) true
      (jsNumberOfString "0x50") true :=
    ConsumesFlags.portFlag "--port" "0x50" [] (JSNum.num 8080) true
      (jsNumberOfString "0x50") true (Or.inl rfl) (by decide) (by decide)
      (ConsumesFlags.nil (jsNumberOfString "0x50") true)
  have hno : ConsumesFlags ["--no-open"] (JSNum.num 8080) true (JSNum.num 8080) false :=
    ConsumesFlags.noOpen [] (JSNum.num 8080) true (JSNum.num 8080) false
      (ConsumesFlags.nil (JSNum.num 8080) false)
  refine ⟨by decide,
    h.1 ["--port", "8081"] (jsNumberOfString "8081") true ["claude"] hport (by decide),
    by decide, ?_, by decide,
    h.2.2.1 ["--no-open"] (JSNum.num 8080) false "bash" ["-lc", "echo hi"] hno
      (by decide) (by decide) (by decide) (by decide) (by decide) (by decide),
    (h.2.2.2.1 ["--no-open"] (JSNum.num 8080) false hno).1,
    (h.2.2.2.1 ["--no-open"] (JSNum.num 8080) false hno).2,
    h.2.2.2.2.1 ["--no-open"] (JSNum.num 8080) false [] hno,
    by decide,
    h.2.2.2.2.2.1 ["--no-open"] (JSNum.num 8080) false "abc" ["--", "bash"] hno (by decide),
    by decide,
    h.1 ["--port", "0x50"] (jsNumberOfString "0x50") true ["bash"] hhex (by decide)⟩
  exact h.2.1 ["--port", "8081", "--", "claude"]
    (CliOptions.mk (jsNumberOfString "8081") ["claude"] true)
    (h.1 ["--port", "8081"] (jsNumberOfString "8081") true ["claude"] hport (by decide))

end Ghostweb
